import Mathlib

/-!
Shallow embedding of the peer connection management and chunked transfer
protocol of the offline-music-player repository.

The embedded code lives in:
* `src/services/p2p.ts` — the `P2PService` class (presence handlers,
  `handleSignal`, `createPeer`, `sendTo`, `broadcast`, `isDirectConnected`,
  the `peer.on('data')` JSON parse guard);
* `src/App.vue` — the multi-handler data dispatcher (`addDataHandler` /
  `onData`) and the `request-clone` chunked sender (`CHUNK_SIZE` selection);
* `src/views/P2PView.vue` — the receiver side of the chunked clone protocol
  (`clone-song-meta` handling, `handleSongChunk`, `finalizeClone`, the
  `onDisconnect` handler and the `songChunksBuffer` map).

External collaborators (Ably realtime channel, simple-peer WebRTC handles,
IndexedDB playlist storage, the browser event loop) are modelled at their
interface boundary: channel publishes and peer sends become explicit
`SendAction` values, storage becomes an explicit association list passed to
the functions that query it, and JSON decoding becomes an `Except` value
supplied by the environment.
-/

/-! ## Connection negotiator: deterministic initiator role

`p2p.ts`, presence `enter` handler (lines 87–98) and presence refresh:
`const initiator = this.localId > member.clientId;` — the side with the
greater identifier initiates the WebRTC negotiation. -/

/-- Embeds `this.localId > member.clientId` from `p2p.ts`: whether the local
side takes the initiator role towards `remoteId`. -/
def initiatorFor (localId remoteId : String) : Bool :=
  decide (remoteId < localId)

/-! ## Peer/session table and the delivery router

`p2p.ts` keeps `peers : Map<string, Peer.Instance>`. A `simple-peer`
instance is modelled by the two facts the embedded code reads off it:
whether it was created as initiator and whether its channel is connected. -/

/-- Model of a `simple-peer` instance as seen by `P2PService`. -/
structure PeerConn where
  connected : Bool
  initiator : Bool
  deriving Repr, DecidableEq

/-- Model of the `P2PService` singleton state (`p2p.ts`). `channelReady`
models `this.channel` being non-null (optional chaining `this.channel?.`
makes publishes no-ops when it is null). -/
structure P2PState where
  localId : String
  peers : List (String × PeerConn)
  onlineIds : List String
  channelReady : Bool
  deriving Repr, DecidableEq

/-- Embeds `P2PService.isDirectConnected` (`p2p.ts` lines 308–311):
`const peer = this.peers.get(peerId); return !!(peer && peer.connected);` -/
def isDirectConnected (st : P2PState) (peerId : String) : Bool :=
  match List.lookup peerId st.peers with
  | some c => c.connected
  | none => false

/-- The externally visible effect of one `sendTo` call. -/
inductive SendAction (α : Type) where
  /-- `peer.send(JSON.stringify(data))` on the direct WebRTC channel. -/
  | direct (toId : String) (payload : α)
  /-- `this.channel.publish('data', { to, from, payload })` — the relay path. -/
  | relay (toId : String) (fromId : String) (payload : α)
  /-- `this.channel?.publish` when the channel is null: nothing happens. -/
  | droppedNoChannel
  deriving Repr, DecidableEq

/-- Embeds `P2PService.sendTo` (`p2p.ts` lines 258–266): use the direct
channel when the peer exists and is connected, otherwise publish the
envelope `{ to: peerId, from: this.localId, payload: data }` on the shared
Ably channel. -/
def sendTo (st : P2PState) (peerId : String) (payload : α) : SendAction α :=
  match List.lookup peerId st.peers with
  | some c =>
    if c.connected then
      .direct peerId payload
    else if st.channelReady then
      .relay peerId st.localId payload
    else
      .droppedNoChannel
  | none =>
    if st.channelReady then
      .relay peerId st.localId payload
    else
      .droppedNoChannel

/-! ## Signal handling (`P2PService.handleSignal`, `createPeer`) -/

/-- Sub-type of a WebRTC signalling payload (`signal.type`). -/
inductive SignalType where
  | offer
  | answer
  | iceCandidate
  deriving Repr, DecidableEq

/-- A signalling payload: its sub-type plus an opaque body (SDP or
candidate data, interpreted only by the negotiation primitive). -/
structure Signal where
  type : SignalType
  body : String
  deriving Repr, DecidableEq

/-- An Ably `signal` message `{ to, from, signal }`. -/
structure SignalEnvelope where
  toId : String
  fromId : String
  signal : Signal
  deriving Repr, DecidableEq

/-- What `handleSignal` did with an inbound signal. -/
inductive SignalAction where
  /-- `peer.signal(signal)` on the already existing session. -/
  | fedToExisting (peerId : String) (s : Signal)
  /-- `this.createPeer(peerId, false, signal)`: a responder session was
  created and the offer fed to it. -/
  | createdResponder (peerId : String) (s : Signal)
  /-- `console.warn('[P2P] No peer exists to handle signal of type', ...)`. -/
  | droppedWarning (peerId : String) (t : SignalType)
  deriving Repr, DecidableEq

/-- Embeds `P2PService.createPeer` (`p2p.ts` lines 186–256) restricted to
its effect on the peer table: a duplicate creation request is a no-op,
otherwise a fresh not-yet-connected peer with the given role is stored. -/
def createPeer (st : P2PState) (peerId : String) (asInitiator : Bool) : P2PState :=
  if (List.lookup peerId st.peers).isSome then
    st
  else
    { st with peers := (peerId, { connected := false, initiator := asInitiator }) :: st.peers }

/-- Embeds `P2PService.handleSignal` (`p2p.ts` lines 166–184). -/
def handleSignal (st : P2PState) (peerId : String) (sig : Signal) :
    P2PState × SignalAction :=
  match List.lookup peerId st.peers with
  | some _ => (st, .fedToExisting peerId sig)
  | none =>
    if sig.type = .offer then
      (createPeer st peerId false, .createdResponder peerId sig)
    else
      (st, .droppedWarning peerId sig.type)

/-- Embeds the `signal` subscription in `P2PService.init` (`p2p.ts` lines
63–67): `if (message.data.to === this.localId) this.handleSignal(...)`. -/
def onSignalMessage (st : P2PState) (msg : SignalEnvelope) :
    P2PState × Option SignalAction :=
  if msg.toId = st.localId then
    let r := handleSignal st msg.fromId msg.signal
    (r.1, some r.2)
  else
    (st, none)

/-! ## Chunked transfer protocol: receiver-side `TransferBuffer`

`P2PView.vue` keeps
`songChunksBuffer : Map<string, { chunks: string[], totalChunks, metadata, processed? }>`
keyed by the string `` `${peerId}-${songIndex}` ``.  The per-key machine
below embeds the `clone-song-meta` case of the data handler (lines 258–269)
and `handleSongChunk` (lines 577–637). -/

/-- The item descriptor carried by a `clone-song-meta` payload and copied
into the saved song record. -/
structure SongMeta where
  title : String
  artist : String
  album : String
  duration : Nat
  deriving Repr, DecidableEq

/-- One entry of `songChunksBuffer`.  `chunks` is the JS array
`new Array(totalChunks)` with indexed writes: a slot is `none` while the
corresponding chunk has not arrived. -/
structure SongBuffer where
  chunks : List (Option String)
  totalChunks : Nat
  metadata : Option SongMeta
  processed : Bool
  deriving Repr, DecidableEq

/-- The record handed to `playlistService.addSong` on reassembly (its
title/artist/album/duration come from the buffered metadata, its `data`
is the joined chunk payload). -/
structure SavedSong where
  meta : SongMeta
  data : String
  deriving Repr, DecidableEq

/-- `buffer.chunks.filter(c => c !== undefined).length` — the number of
filled slots. -/
def countReceived (chunks : List (Option String)) : Nat :=
  (chunks.filter Option.isSome).length

/-- `buffer.chunks.join('')` — JS `join` renders an unfilled slot as the
empty string; at reassembly time every slot is filled. -/
def joinChunks (chunks : List (Option String)) : String :=
  String.join (chunks.map fun c => c.getD "")

/-- Inbound protocol events for one `(peerId, songIndex)` key.  `cleanup`
models the `songChunksBuffer.delete(key)` that `handleSongChunk` performs
after the awaited `addSong` resolves; it is a separate step because other
messages may be dispatched while that save is awaited. -/
inductive BufferEvent where
  | metaMsg (m : SongMeta) (totalChunks : Nat)
  | chunkMsg (chunkIndex : Nat) (totalChunks : Nat) (data : String)
  | cleanup
  deriving Repr, DecidableEq

/-- Embeds the `clone-song-meta` case (`P2PView.vue` lines 258–269): create
the buffer with an empty slot array when the key is new, otherwise
attach/overwrite the metadata field only. -/
def applyMeta (st : Option SongBuffer) (m : SongMeta) (tc : Nat) : Option SongBuffer :=
  match st with
  | none =>
    some { chunks := List.replicate tc none, totalChunks := tc,
           metadata := some m, processed := false }
  | some b => some { b with metadata := some m }

/-- Embeds `handleSongChunk` (`P2PView.vue` lines 577–637) up to and
including the save decision: ensure a buffer exists, write the slot, and
when every slot is filled, metadata is present and the `processed` guard is
clear, mark `processed` and emit the reassembled song (the progress-bar
update is UI-only and omitted).  `tc` is the `totalChunks` field of the
chunk payload, which is what the completion comparison uses. -/
def applyChunk (st : Option SongBuffer) (i tc : Nat) (d : String) :
    Option SongBuffer × Option SavedSong :=
  let b := st.getD { chunks := List.replicate tc none, totalChunks := tc,
                     metadata := none, processed := false }
  let b' := { b with chunks := b.chunks.set i (some d) }
  if countReceived b'.chunks = tc then
    match b'.metadata with
    | some m =>
      if b'.processed then
        (some b', none)
      else
        (some { b' with processed := true },
         some { meta := m, data := joinChunks b'.chunks })
    | none => (some b', none)
  else
    (some b', none)

/-- One step of the per-key transfer machine. -/
def bufferStep (st : Option SongBuffer) : BufferEvent → Option SongBuffer × Option SavedSong
  | .metaMsg m tc => (applyMeta st m tc, none)
  | .chunkMsg i tc d => applyChunk st i tc d
  | .cleanup => (none, none)

/-- Run the machine over a list of events, collecting every saved song. -/
def bufferRun : Option SongBuffer → List BufferEvent → Option SongBuffer × List SavedSong
  | st, [] => (st, [])
  | st, e :: es =>
    ((bufferRun (bufferStep st e).1 es).1,
     (bufferStep st e).2.toList ++ (bufferRun (bufferStep st e).1 es).2)

/-- The chunk messages of a transfer with `n` total chunks whose chunk at
index `i` carries payload `d i`, delivered in the index order `ids`. -/
def chunkEvts (n : Nat) (d : Nat → String) (ids : List Nat) : List BufferEvent :=
  ids.map fun i => .chunkMsg i n (d i)

/-- Recognizes a `clone-song-meta` event. -/
def isMetaEvt : BufferEvent → Bool
  | .metaMsg _ _ => true
  | _ => false

/-- Number of metadata events in a delivery. -/
def metaCount (L : List BufferEvent) : Nat :=
  L.countP isMetaEvt

/-- A chunk event is in range when its index addresses one of the
`totalChunks` slots (an out-of-range JS array write would grow the array;
such messages are never produced by the sender). -/
def chunkInRange : BufferEvent → Bool
  | .chunkMsg i tc _ => decide (i < tc)
  | _ => true

/-- Every chunk event of the delivery addresses a real slot. -/
def wfEvents (L : List BufferEvent) : Prop :=
  ∀ e ∈ L, chunkInRange e = true

/-! Proof-side description of slot arrays: the slot array of a transfer
with chunk data `d` in which exactly the indices satisfying `P` have
arrived. -/

/-- Slot array holding `d j` exactly at the indices `j < n` with `P j`. -/
def slotsOf (n : Nat) (d : Nat → String) (P : Nat → Bool) : List (Option String) :=
  (List.range n).map fun j => if P j then some (d j) else none

/-- Mark one more index as arrived. -/
def addIdx (P : Nat → Bool) (i : Nat) : Nat → Bool :=
  fun j => if j = i then true else P j

/-- Mark a list of indices as arrived, in order. -/
def listOr : List Nat → (Nat → Bool) → Nat → Bool
  | [], P => P
  | i :: r, P => listOr r (addIdx P i)

/-- The buffer of a transfer with `n` chunks of data `d` in which exactly
the indices satisfying `P` have arrived. -/
def bufAt (n : Nat) (d : Nat → String) (P : Nat → Bool)
    (md : Option SongMeta) (pr : Bool) : SongBuffer :=
  { chunks := slotsOf n d P, totalChunks := n, metadata := md, processed := pr }

/-! ## The `songChunksBuffer` map and the view-level handlers -/

/-- `` `${peerId}-${songIndex}` `` -/
def mkChunkKey (peerId : String) (songIndex : Nat) : String :=
  peerId ++ "-" ++ toString songIndex

/-- `Map.set`: replace the binding for `k` in place, or append it. -/
def assocSet : List (String × SongBuffer) → String → SongBuffer → List (String × SongBuffer)
  | [], k, v => [(k, v)]
  | (k', v') :: rest, k, v =>
    if k' = k then (k, v) :: rest else (k', v') :: assocSet rest k v

/-- `Map.delete`. -/
def assocErase (m : List (String × SongBuffer)) (k : String) : List (String × SongBuffer) :=
  m.filter fun e => decide (e.1 ≠ k)

/-- The `clone-song-meta` case at the map level. -/
def handleSongMetaMap (buffers : List (String × SongBuffer)) (peerId : String)
    (songIndex tc : Nat) (m : SongMeta) : List (String × SongBuffer) :=
  let key := mkChunkKey peerId songIndex
  match applyMeta (List.lookup key buffers) m tc with
  | some b => assocSet buffers key b
  | none => buffers

/-- One complete `handleSongChunk` invocation at the map level, including
the `songChunksBuffer.delete(key)` executed after a successful save. -/
def handleSongChunkMap (buffers : List (String × SongBuffer)) (peerId : String)
    (songIndex chunkIndex tc : Nat) (d : String) :
    List (String × SongBuffer) × Option SavedSong :=
  let key := mkChunkKey peerId songIndex
  let r := applyChunk (List.lookup key buffers) chunkIndex tc d
  match r.2 with
  | some s => (assocErase buffers key, some s)
  | none =>
    match r.1 with
    | some b => (assocSet buffers key b, none)
    | none => (buffers, none)

/-- The slice of `P2PView.vue` component state the embedded handlers
touch: the connected-peer counter, the set of peers with a map marker, and
the transfer-buffer map. -/
structure ViewState where
  connectedPeersCount : Nat
  peerMarkers : List String
  songChunksBuffer : List (String × SongBuffer)
  deriving Repr, DecidableEq

/-- Embeds the `p2pService.onDisconnect` handler installed by `P2PView.vue`
(lines 319–329): decrement the counter (`Math.max(0, c - 1)` is truncated
subtraction), remove the peer's marker if present, chain to the original
callback (which is null when the view mounts). -/
def viewOnDisconnect (st : ViewState) (peerId : String) : ViewState :=
  { st with
    connectedPeersCount := st.connectedPeersCount - 1,
    peerMarkers := st.peerMarkers.erase peerId }

/-- Embeds the `clone-error` case of the view data handler (lines 276–280)
restricted to the buffer map: `songChunksBuffer.clear()`. -/
def cloneErrorStep (st : ViewState) : ViewState :=
  { st with songChunksBuffer := [] }

/-! ## Transfer finalization (`finalizeClone`, `P2PView.vue` lines 639–652) -/

/-- Aggregate clone progress (`cloneProgress.value`); `total` is the
`totalSongs` count declared by the `clone-start` message. -/
structure CloneProgress where
  active : Bool
  playlistName : String
  current : Nat
  total : Nat
  newPlaylistId : Nat
  sourcePeerId : String
  deriving Repr, DecidableEq

/-- The storage collaborator at its interface boundary: playlist id to the
songs actually saved under it; `playlistService.getSongsForPlaylist`. -/
def getSongsForPlaylist (storage : List (Nat × List SavedSong)) (pid : Nat) : List SavedSong :=
  (List.lookup pid storage).getD []

/-- Embeds `finalizeClone`: count the songs actually saved in the new
playlist, deactivate the progress display, clear every residual buffer, and
report that count (the 500 ms grace delay is real time and not modelled).
Returns (updated progress, cleared buffer map, reported count). -/
def finalizeClone (storage : List (Nat × List SavedSong)) (prog : CloneProgress)
    (_buffers : List (String × SongBuffer)) :
    CloneProgress × List (String × SongBuffer) × Nat :=
  let songsCloned := (getSongsForPlaylist storage prog.newPlaylistId).length
  ({ prog with active := false }, [], songsCloned)

/-! ## Application message dispatcher (`App.vue` lines 712–736)

`App.vue` replaces the single `onData` callback with an ordered
`dataHandlers` array; `p2pService.onData` loops over it with a per-handler
`try`/`catch` and then proceeds to its built-in `type` switch.  A handler
is a function of the sending peer and the decoded message; a JS exception
thrown by a handler is an `Except.error`. -/

/-- A decoded JSON payload as the dynamically-typed handlers see it: the
required fields may be absent. -/
structure RawMsg where
  type : Option String
  payload : Option String
  deriving Repr, DecidableEq

/-- What the dispatcher loop records for one handler. -/
inductive HandlerResult where
  /-- the `await handler(peerId, data)` resolved -/
  | succeeded
  /-- the handler threw; `console.error('[App] Error in data handler:', e)` -/
  | failedLogged (err : String)
  deriving Repr, DecidableEq

/-- Embeds `for (const handler of dataHandlers) { try { await handler(...) }
catch (error) { console.error(...) } }`. -/
def runHandlersLoop (handlers : List (String → RawMsg → Except String Unit))
    (peerId : String) (msg : RawMsg) : List HandlerResult :=
  match handlers with
  | [] => []
  | h :: rest =>
    (match h peerId msg with
     | .ok _ => .succeeded
     | .error e => .failedLogged e) :: runHandlersLoop rest peerId msg

/-- Result of one `p2pService.onData` dispatch. -/
structure DispatchOutcome where
  results : List HandlerResult
  delivered : Bool
  deriving Repr, DecidableEq

/-- Embeds the `p2pService.onData` dispatcher: run every registered handler
in registration order, then continue to the built-in `type` switch — the
message counts as delivered unconditionally. -/
def onDataDispatch (handlers : List (String → RawMsg → Except String Unit))
    (peerId : String) (msg : RawMsg) : DispatchOutcome :=
  { results := runHandlersLoop handlers peerId msg, delivered := true }

/-- Classification of one handler outcome as the loop records it. -/
def resultOf : Except String Unit → HandlerResult
  | .ok _ => .succeeded
  | .error e => .failedLogged e

/-! ## Inbound parse guard (`p2p.ts` lines 227–232)

`peer.on('data', ...)` runs `JSON.parse` inside `try`/`catch`; on failure
it logs and does not call `onData`.  The external `JSON.parse` is modelled
by its `Except` result. -/

/-- Observable outcome of the `peer.on('data')` callback. -/
structure GuardOutcome where
  invoked : Option RawMsg
  loggedParseError : Bool
  threw : Bool
  deriving Repr, DecidableEq

/-- Embeds the parse guard: a decodable payload is handed to `onData`
verbatim (whether or not its fields are present); an undecodable one is
dropped with a logged error; the catch-all means the callback itself never
throws. -/
def peerDataGuard : Except String RawMsg → GuardOutcome
  | .ok m => { invoked := some m, loggedParseError := false, threw := false }
  | .error _ => { invoked := none, loggedParseError := true, threw := false }

/-! ## Sender-side chunking (`App.vue` `request-clone` handler, lines 773–845)

`const CHUNK_SIZE = p2pService.isDirectConnected(peerId) ? (64 * 1024) : (30 * 1024);`
`const totalChunks = Math.ceil(dataStr.length / CHUNK_SIZE);`
and for each `chunkIndex` the slice
`dataStr.substring(chunkIndex * CHUNK_SIZE, Math.min(start + CHUNK_SIZE, dataStr.length))`.
The base64 `dataStr` is modelled as its character list. -/

/-- `Math.ceil(len / cs)` on naturals. -/
def totalChunksFor (len cs : Nat) : Nat :=
  (len + cs - 1) / cs

/-- The chunk-size selection from the direct-connectivity query. -/
def cloneChunkSize (direct : Bool) : Nat :=
  if direct then 64 * 1024 else 30 * 1024

/-- A `clone-song-chunk` payload. -/
structure ChunkMsg where
  songIndex : Nat
  chunkIndex : Nat
  totalChunks : Nat
  data : List Char
  deriving Repr, DecidableEq

/-- The chunk messages the sender loop emits for one song with encoded
data `dataStr` and chunk size `cs`. -/
def chunkMsgsFor (songIndex : Nat) (dataStr : List Char) (cs : Nat) : List ChunkMsg :=
  (List.range (totalChunksFor dataStr.length cs)).map fun ci =>
    { songIndex := songIndex, chunkIndex := ci,
      totalChunks := totalChunksFor dataStr.length cs,
      data := (dataStr.drop (ci * cs)).take cs }

/-- The chunked send of one song to `peerId`, with the chunk size chosen
from `isDirectConnected` exactly as the `request-clone` handler does. -/
def sendCloneSong (st : P2PState) (peerId : String) (songIndex : Nat)
    (dataStr : List Char) : List ChunkMsg :=
  chunkMsgsFor songIndex dataStr (cloneChunkSize (isDirectConnected st peerId))

/-! ## Claim C1 -/

/-- Claim C1: for distinct peer identifiers the initiator role is a pure
function of the two identifiers — the greater identifier initiates — so the
flag one side computes for the pair is always the negation of the flag the
other side computes, and exactly one of the two sides initiates. -/
theorem claim_C1 (a b : String) (hab : a ≠ b) :
    initiatorFor a b = !(initiatorFor b a) := by
  rcases lt_trichotomy a b with h | h | h
  · have h1 : ¬ b < a := lt_asymm h
    simp [initiatorFor, h, h1]
  · exact absurd h hab
  · have h1 : ¬ a < b := lt_asymm h
    simp [initiatorFor, h, h1]

/-- Concrete instance of `claim_C1` for the identifiers `user_b` and
`user_a`: `user_b` initiates towards `user_a` and not conversely. -/
theorem claim_C1_witness :
    "user_b" ≠ "user_a" ∧
      initiatorFor "user_b" "user_a" = !(initiatorFor "user_a" "user_b") :=
  ⟨by decide, claim_C1 "user_b" "user_a" (by decide)⟩

/-! ## Slot-array lemmas -/

theorem slotsOf_length (n : Nat) (d : Nat → String) (P : Nat → Bool) :
    (slotsOf n d P).length = n := by
  simp [slotsOf]

theorem slotsOf_false (n : Nat) (d : Nat → String) :
    slotsOf n d (fun _ => false) = List.replicate n none := by
  apply List.eq_replicate_iff.mpr
  refine ⟨by simp [slotsOf], ?_⟩
  intro x hx
  simp only [slotsOf, List.mem_map] at hx
  obtain ⟨a, -, h⟩ := hx
  simpa using h.symm

theorem slotsOf_set (n : Nat) (d : Nat → String) (P : Nat → Bool) (i : Nat) :
    (slotsOf n d P).set i (some (d i)) = slotsOf n d (addIdx P i) := by
  apply List.ext_getElem
  · simp [slotsOf]
  · intro k h1 h2
    have hk : k < n := by simpa [slotsOf] using h2
    simp only [List.getElem_set, slotsOf, List.getElem_map, List.getElem_range, addIdx]
    by_cases hik : i = k
    · subst hik
      simp
    · have : ¬ k = i := fun h => hik h.symm
      simp [hik, this]

theorem countReceived_slotsOf (n : Nat) (d : Nat → String) (P : Nat → Bool) :
    countReceived (slotsOf n d P) = ((List.range n).filter P).length := by
  unfold countReceived slotsOf
  rw [List.filter_map, List.length_map]
  congr 1
  apply List.filter_congr
  intro j _
  by_cases h : P j <;> simp [h]

theorem countReceived_full (n : Nat) (d : Nat → String) (P : Nat → Bool)
    (h : ∀ j, j < n → P j = true) :
    countReceived (slotsOf n d P) = n := by
  rw [countReceived_slotsOf, List.filter_eq_self.mpr, List.length_range]
  intro a ha
  exact h a (List.mem_range.mp ha)

theorem countReceived_not_full (n : Nat) (d : Nat → String) (P : Nat → Bool)
    (j : Nat) (hj : j < n) (hPj : P j = false) :
    countReceived (slotsOf n d P) ≠ n := by
  rw [countReceived_slotsOf]
  intro h
  have hlen : (List.range n).length ≤ ((List.range n).filter P).length := by
    simp [h]
  have heq : (List.range n).filter P = List.range n :=
    (List.filter_sublist _).eq_of_length_le hlen
  have hmem : j ∈ (List.range n).filter P := by
    rw [heq]
    exact List.mem_range.mpr hj
  have := (List.mem_filter.mp hmem).2
  simp [hPj] at this

theorem joinChunks_full (n : Nat) (d : Nat → String) (P : Nat → Bool)
    (h : ∀ j, j < n → P j = true) :
    joinChunks (slotsOf n d P) = String.join ((List.range n).map d) := by
  unfold joinChunks slotsOf
  rw [List.map_map]
  congr 1
  apply List.map_congr_left
  intro j hj
  have := h j (List.mem_range.mp hj)
  simp [this]

theorem listOr_eq_true_iff (r : List Nat) (P : Nat → Bool) (j : Nat) :
    listOr r P j = true ↔ j ∈ r ∨ P j = true := by
  induction r generalizing P with
  | nil => simp [listOr]
  | cons i r ih =>
    simp only [listOr, ih, addIdx, List.mem_cons]
    by_cases h : j = i
    · subst h
      simp
    · simp [h]

/-! ## Single-step lemmas for the transfer machine -/

theorem step_meta_none (n : Nat) (d : Nat → String) (m : SongMeta) :
    bufferStep none (.metaMsg m n)
      = (some (bufAt n d (fun _ => false) (some m) false), none) := by
  simp [bufferStep, applyMeta, bufAt, slotsOf_false]

theorem step_meta_some (n : Nat) (d : Nat → String) (P : Nat → Bool)
    (pr : Bool) (md : Option SongMeta) (m : SongMeta) :
    bufferStep (some (bufAt n d P md pr)) (.metaMsg m n)
      = (some (bufAt n d P (some m) pr), none) := by
  simp [bufferStep, applyMeta, bufAt]

theorem step_chunk_none (n : Nat) (d : Nat → String) (i : Nat) :
    bufferStep none (.chunkMsg i n (d i))
      = (some (bufAt n d (addIdx (fun _ => false) i) none false), none) := by
  simp only [bufferStep, applyChunk, Option.getD_none, bufAt]
  rw [show (List.replicate n (none : Option String)) = slotsOf n d (fun _ => false) from
        (slotsOf_false n d).symm,
      slotsOf_set n d (fun _ => false) i]
  split <;> rfl

theorem step_chunk_no_meta (n : Nat) (d : Nat → String) (P : Nat → Bool) (i : Nat) :
    bufferStep (some (bufAt n d P none false)) (.chunkMsg i n (d i))
      = (some (bufAt n d (addIdx P i) none false), none) := by
  simp only [bufferStep, applyChunk, Option.getD_some, bufAt]
  rw [slotsOf_set n d P i]
  split <;> rfl

theorem step_chunk_meta_not_full (n : Nat) (d : Nat → String) (P : Nat → Bool)
    (i : Nat) (m : SongMeta) (j : Nat) (hj : j < n) (hPj : addIdx P i j = false) :
    bufferStep (some (bufAt n d P (some m) false)) (.chunkMsg i n (d i))
      = (some (bufAt n d (addIdx P i) (some m) false), none) := by
  have hcount := countReceived_not_full n d (addIdx P i) j hj hPj
  simp only [bufferStep, applyChunk, Option.getD_some, bufAt]
  rw [slotsOf_set n d P i]
  simp [hcount]

theorem step_chunk_meta_full (n : Nat) (d : Nat → String) (P : Nat → Bool)
    (i : Nat) (m : SongMeta) (hfull : ∀ j, j < n → addIdx P i j = true) :
    bufferStep (some (bufAt n d P (some m) false)) (.chunkMsg i n (d i))
      = (some (bufAt n d (addIdx P i) (some m) true),
         some { meta := m, data := String.join ((List.range n).map d) }) := by
  have hc := countReceived_full n d (addIdx P i) hfull
  have hjoin := joinChunks_full n d (addIdx P i) hfull
  simp only [bufferStep, applyChunk, Option.getD_some, bufAt]
  rw [slotsOf_set n d P i]
  simp [hc, hjoin]

/-! ## Run lemmas for the transfer machine -/

theorem chunkEvts_nil (n : Nat) (d : Nat → String) : chunkEvts n d [] = [] := rfl

theorem chunkEvts_cons (n : Nat) (d : Nat → String) (i : Nat) (r : List Nat) :
    chunkEvts n d (i :: r) = .chunkMsg i n (d i) :: chunkEvts n d r := rfl

theorem bufferRun_nil (st : Option SongBuffer) : bufferRun st [] = (st, []) := rfl

theorem bufferRun_cons (st : Option SongBuffer) (e : BufferEvent) (es : List BufferEvent) :
    bufferRun st (e :: es)
      = ((bufferRun (bufferStep st e).1 es).1,
         (bufferStep st e).2.toList ++ (bufferRun (bufferStep st e).1 es).2) := rfl

theorem bufferRun_append (st : Option SongBuffer) (l1 l2 : List BufferEvent) :
    bufferRun st (l1 ++ l2)
      = ((bufferRun (bufferRun st l1).1 l2).1,
         (bufferRun st l1).2 ++ (bufferRun (bufferRun st l1).1 l2).2) := by
  induction l1 generalizing st with
  | nil => simp [bufferRun]
  | cons e es ih =>
    simp only [List.cons_append, bufferRun_cons, ih]
    simp [List.append_assoc]

theorem run_chunks_no_meta (n : Nat) (d : Nat → String) :
    ∀ (r : List Nat) (P : Nat → Bool),
    bufferRun (some (bufAt n d P none false)) (chunkEvts n d r)
      = (some (bufAt n d (listOr r P) none false), []) := by
  intro r
  induction r with
  | nil => intro P; simp [chunkEvts, bufferRun, listOr]
  | cons i r ih =>
    intro P
    rw [chunkEvts_cons, bufferRun_cons, step_chunk_no_meta n d P i]
    simp only [listOr]
    rw [ih (addIdx P i)]
    simp

theorem run_chunks_meta (n : Nat) (d : Nat → String) (m : SongMeta) :
    ∀ (r : List Nat) (P : Nat → Bool), r ≠ [] → r.Nodup → (∀ i ∈ r, i < n) →
    (∀ i ∈ r, P i = false) → (∀ j, j < n → listOr r P j = true) →
    bufferRun (some (bufAt n d P (some m) false)) (chunkEvts n d r)
      = (some (bufAt n d (listOr r P) (some m) true),
         [{ meta := m, data := String.join ((List.range n).map d) }]) := by
  intro r
  induction r with
  | nil => intro P h; exact absurd rfl h
  | cons i r ih =>
    intro P _ hnd hbound hP hcov
    rcases r with _ | ⟨i2, r2⟩
    · -- last chunk: the write completes the slot array and triggers the save
      have hfull : ∀ j, j < n → addIdx P i j = true := by
        intro j hj
        have := hcov j hj
        simpa [listOr] using this
      rw [chunkEvts_cons, bufferRun_cons, step_chunk_meta_full n d P i m hfull]
      simp [chunkEvts, bufferRun, listOr]
    · -- an unfilled slot remains, so this write cannot trigger the save
      have hi2 : i2 < n := hbound i2 (by simp)
      have hne : i2 ≠ i := by
        intro h
        subst h
        exact (List.nodup_cons.mp hnd).1 (by simp)
      have hPi2 : addIdx P i i2 = false := by
        have : P i2 = false := hP i2 (by simp)
        simp [addIdx, hne, this]
      rw [chunkEvts_cons, bufferRun_cons,
          step_chunk_meta_not_full n d P i m i2 hi2 hPi2]
      simp only [listOr]
      rw [ih (addIdx P i) (by simp) (List.nodup_cons.mp hnd).2
            (fun t ht => hbound t (List.mem_cons_of_mem i ht))
            ?_ ?_]
      · simp [listOr]
      · intro t ht
        have hti : t ≠ i := by
          intro h
          subst h
          exact (List.nodup_cons.mp hnd).1 ht
        have : P t = false := hP t (List.mem_cons_of_mem i ht)
        simp [addIdx, hti, this]
      · intro j hj
        have := hcov j hj
        simpa [listOr] using this

/-! ## Claim C2 -/

/-- Claim C2, as stated, fails on the code: when the `clone-song-meta`
message arrives after the final chunk, reassembly never triggers, because
only `handleSongChunk` checks the completion precondition — the
`clone-song-meta` case records the metadata without checking it.  With one
chunk, the delivery order chunk-then-metadata saves nothing, while the
in-order delivery metadata-then-chunk saves the reassembled song. -/
theorem claim_C2_counterexample :
    (bufferRun none
        [BufferEvent.chunkMsg 0 1 "x",
         BufferEvent.metaMsg { title := "t", artist := "a", album := "b", duration := 0 } 1]).2
      = []
    ∧ (bufferRun none
        [BufferEvent.metaMsg { title := "t", artist := "a", album := "b", duration := 0 } 1,
         BufferEvent.chunkMsg 0 1 "x"]).2
      = [{ meta := { title := "t", artist := "a", album := "b", duration := 0 },
           data := "x" }] := by
  constructor <;> rfl

/-- Claim C2 (amended): feeding a transfer buffer its `totalChunks = n`
chunk messages in any permutation `p ++ q` of the indices `0..n-1`, with
the item-metadata message arriving at any point strictly before the last
chunk message (`q ≠ []`), produces exactly one save whose payload is the
chunks joined in index order — the same result as in-order delivery (the
instance `p = []`, `q = [0, ..., n-1]`). -/
theorem claim_C2_amended (n : Nat) (d : Nat → String) (m : SongMeta)
    (p q : List Nat) (hperm : (p ++ q).Perm (List.range n)) (hq : q ≠ []) :
    (bufferRun none
        (chunkEvts n d p ++ BufferEvent.metaMsg m n :: chunkEvts n d q)).2
      = [{ meta := m, data := String.join ((List.range n).map d) }] := by
  have hnd : (p ++ q).Nodup := hperm.nodup_iff.mpr (List.nodup_range n)
  have hmem : ∀ j, j ∈ p ++ q ↔ j < n := fun j => by
    rw [hperm.mem_iff, List.mem_range]
  have hbq : ∀ i ∈ q, i < n := fun i hi => (hmem i).mp (List.mem_append_right p hi)
  have hndq : q.Nodup := hnd.of_append_right
  have hdisj : ∀ j ∈ q, j ∉ p := fun j hjq hjp =>
    (List.disjoint_of_nodup_append hnd) hjp hjq
  have hP : ∀ t ∈ q, listOr p (fun _ => false) t = false := by
    intro t ht
    cases hb : listOr p (fun _ => false) t with
    | false => rfl
    | true =>
      exfalso
      have := (listOr_eq_true_iff p (fun _ => false) t).mp hb
      simp only [Bool.false_eq_true, or_false] at this
      exact hdisj t ht this
  have hcov : ∀ j, j < n → listOr q (listOr p (fun _ => false)) j = true := by
    intro j hj
    apply (listOr_eq_true_iff _ _ _).mpr
    rcases List.mem_append.mp ((hmem j).mpr hj) with hp | hq2
    · exact Or.inr ((listOr_eq_true_iff _ _ _).mpr (Or.inl hp))
    · exact Or.inl hq2
  rw [bufferRun_append]
  cases p with
  | nil =>
    rw [chunkEvts_nil, bufferRun_nil, bufferRun_cons, step_meta_none n d m,
        run_chunks_meta n d m q (fun _ => false) hq hndq hbq hP hcov]
    simp
  | cons i p' =>
    have hA : bufferRun none (chunkEvts n d (i :: p'))
        = (some (bufAt n d (listOr (i :: p') (fun _ => false)) none false), []) := by
      rw [chunkEvts_cons, bufferRun_cons, step_chunk_none n d i]
      simp only [listOr]
      rw [run_chunks_no_meta n d p' (addIdx (fun _ => false) i)]
      simp
    rw [hA, bufferRun_cons,
        step_meta_some n d (listOr (i :: p') (fun _ => false)) false none m,
        run_chunks_meta n d m q (listOr (i :: p') (fun _ => false)) hq hndq hbq hP hcov]
    simp

/-- Concrete instance of `claim_C2_amended`: three chunks delivered in the
order 2, 0, metadata, 1 reassemble to the in-order concatenation. -/
theorem claim_C2_amended_witness :
    ([2, 0] ++ [1]).Perm (List.range 3) ∧ ([1] : List Nat) ≠ [] ∧
    (bufferRun none
        (chunkEvts 3 (fun i => toString i) [2, 0]
          ++ BufferEvent.metaMsg { title := "t", artist := "a", album := "b", duration := 0 } 3
            :: chunkEvts 3 (fun i => toString i) [1])).2
      = [{ meta := { title := "t", artist := "a", album := "b", duration := 0 },
           data := String.join ((List.range 3).map (fun i => toString i)) }] :=
  ⟨by decide, by decide,
   claim_C2_amended 3 (fun i => toString i)
     { title := "t", artist := "a", album := "b", duration := 0 }
     [2, 0] [1] (by decide) (by decide)⟩

/-! ## Claim C3 -/

theorem step_chunk_quiet (st : Option SongBuffer) (i tc : Nat) (dd : String)
    (hq : ∀ b, st = some b → b.metadata = none ∨ b.processed = true) :
    (bufferStep st (.chunkMsg i tc dd)).2 = none ∧
    (∀ b, (bufferStep st (.chunkMsg i tc dd)).1 = some b →
      b.metadata = none ∨ b.processed = true) := by
  cases st with
  | none =>
    simp only [bufferStep, applyChunk, Option.getD_none]
    split
    · constructor
      · rfl
      · intro b hb
        cases hb
        exact Or.inl rfl
    · constructor
      · rfl
      · intro b hb
        cases hb
        exact Or.inl rfl
  | some b0 =>
    rcases hq b0 rfl with hmeta | hproc
    · simp only [bufferStep, applyChunk, Option.getD_some, hmeta]
      split
      · refine ⟨rfl, fun b hb => ?_⟩
        cases hb
        exact Or.inl rfl
      · refine ⟨rfl, fun b hb => ?_⟩
        cases hb
        exact Or.inl rfl
    · simp only [bufferStep, applyChunk, Option.getD_some]
      split
      · cases hm : b0.metadata with
        | none =>
          simp only [hm]
          refine ⟨by trivial, fun b hb => ?_⟩
          cases hb
          exact Or.inl rfl
        | some mm =>
          simp only [hm, hproc, if_true]
          refine ⟨by trivial, fun b hb => ?_⟩
          cases hb
          exact Or.inr rfl
      · refine ⟨rfl, fun b hb => ?_⟩
        cases hb
        exact Or.inr hproc

theorem step_chunk_save_quiet (st : Option SongBuffer) (i tc : Nat) (dd : String)
    (s : SavedSong) (hs : (bufferStep st (.chunkMsg i tc dd)).2 = some s) :
    ∀ b, (bufferStep st (.chunkMsg i tc dd)).1 = some b →
      b.metadata = none ∨ b.processed = true := by
  cases st with
  | none =>
    revert hs
    simp only [bufferStep, applyChunk, Option.getD_none]
    split
    · intro hs
      cases hs
    · intro hs
      cases hs
  | some b0 =>
    revert hs
    simp only [bufferStep, applyChunk, Option.getD_some]
    split
    · cases hm : b0.metadata with
      | none =>
        intro hs
        cases hs
      | some mm =>
        cases hp : b0.processed with
        | true =>
          simp only [hp, if_true]
          intro hs
          cases hs
        | false =>
          simp only [hp, if_false]
          intro _ b hb
          cases hb
          exact Or.inr rfl
    · intro hs
      cases hs

theorem metaCount_cons (e : BufferEvent) (es : List BufferEvent) :
    metaCount (e :: es) = metaCount es + if isMetaEvt e then 1 else 0 :=
  List.countP_cons isMetaEvt e es

theorem run_no_meta_quiet :
    ∀ (L : List BufferEvent) (st : Option SongBuffer), metaCount L = 0 →
    (∀ b, st = some b → b.metadata = none ∨ b.processed = true) →
    (bufferRun st L).2 = [] ∧
    (∀ b, (bufferRun st L).1 = some b → b.metadata = none ∨ b.processed = true) := by
  intro L
  induction L with
  | nil => intro st _ hq; exact ⟨rfl, hq⟩
  | cons e es ih =>
    intro st hL hq
    rw [metaCount_cons] at hL
    have hes : metaCount es = 0 := by
      split at hL <;> omega
    cases e with
    | metaMsg m tc => simp [isMetaEvt] at hL
    | chunkMsg i tc dd =>
      obtain ⟨ho, hq'⟩ := step_chunk_quiet st i tc dd hq
      rw [bufferRun_cons, ho]
      obtain ⟨h1, h2⟩ := ih _ hes hq'
      exact ⟨by simpa using h1, h2⟩
    | cleanup =>
      rw [bufferRun_cons]
      have hstep : bufferStep st .cleanup = (none, none) := rfl
      rw [hstep]
      obtain ⟨h1, h2⟩ := ih none hes (by intro b hb; cases hb)
      exact ⟨by simpa using h1, h2⟩

theorem run_saves_le_one_no_meta :
    ∀ (L : List BufferEvent) (st : Option SongBuffer), metaCount L = 0 →
    (bufferRun st L).2.length ≤ 1 := by
  intro L
  induction L with
  | nil => intro st _; simp [bufferRun_nil]
  | cons e es ih =>
    intro st hL
    rw [metaCount_cons] at hL
    have hes : metaCount es = 0 := by
      split at hL <;> omega
    cases e with
    | metaMsg m tc => simp [isMetaEvt] at hL
    | chunkMsg i tc dd =>
      rw [bufferRun_cons]
      cases hs : (bufferStep st (.chunkMsg i tc dd)).2 with
      | none => simpa using ih _ hes
      | some s =>
        have hq' := step_chunk_save_quiet st i tc dd s hs
        obtain ⟨h1, -⟩ := run_no_meta_quiet es _ hes hq'
        simp [h1]
    | cleanup =>
      rw [bufferRun_cons]
      have hstep : bufferStep st .cleanup = (none, none) := rfl
      rw [hstep]
      simpa using ih none hes

theorem run_saves_le_one_aux :
    ∀ (L : List BufferEvent) (st : Option SongBuffer), metaCount L ≤ 1 →
    (∀ b, st = some b → b.metadata = none ∨ b.processed = true) →
    (bufferRun st L).2.length ≤ 1 := by
  intro L
  induction L with
  | nil => intro st _ _; simp [bufferRun_nil]
  | cons e es ih =>
    intro st hL hq
    rw [metaCount_cons] at hL
    cases e with
    | metaMsg m tc =>
      have hes : metaCount es = 0 := by simp [isMetaEvt] at hL; omega
      rw [bufferRun_cons]
      have hstep : (bufferStep st (.metaMsg m tc)).2 = none := by
        cases st <;> rfl
      rw [hstep]
      simpa using run_saves_le_one_no_meta es _ hes
    | chunkMsg i tc dd =>
      have hes : metaCount es ≤ 1 := by simp [isMetaEvt] at hL; omega
      obtain ⟨ho, hq'⟩ := step_chunk_quiet st i tc dd hq
      rw [bufferRun_cons, ho]
      simpa using ih _ hes hq'
    | cleanup =>
      have hes : metaCount es ≤ 1 := by simp [isMetaEvt] at hL; omega
      rw [bufferRun_cons]
      have hstep : bufferStep st .cleanup = (none, none) := rfl
      rw [hstep]
      simpa using ih none hes (by intro b hb; cases hb)

/-- Claim C3: for one `(source peer, itemIndex)` key, any delivery that
contains at most one `clone-song-meta` message — chunk messages may be
duplicated arbitrarily, including duplicates that arrive between the save
and its deferred `delete(key)` and therefore re-satisfy the completion
precondition against the still-present buffer — produces at most one
reassemble-and-save action: the `processed` guard blocks a re-trigger
while the buffer is alive, and a buffer recreated after deletion never
regains metadata. -/
theorem claim_C3 (L : List BufferEvent) (_hwf : wfEvents L) (hm : metaCount L ≤ 1) :
    (bufferRun none L).2.length ≤ 1 := by
  have : ∀ b, (none : Option SongBuffer) = some b →
      b.metadata = none ∨ b.processed = true := by
    intro b hb
    cases hb
  exact run_saves_le_one_aux L none hm this

/-- Concrete instance of `claim_C3`: metadata then the single chunk, then a
duplicate of that chunk — the duplicate re-satisfies "all slots filled and
metadata present" but only one save occurs. -/
theorem claim_C3_witness :
    wfEvents
      [BufferEvent.metaMsg { title := "t", artist := "a", album := "b", duration := 0 } 1,
       BufferEvent.chunkMsg 0 1 "x", BufferEvent.chunkMsg 0 1 "x"] ∧
    metaCount
      [BufferEvent.metaMsg { title := "t", artist := "a", album := "b", duration := 0 } 1,
       BufferEvent.chunkMsg 0 1 "x", BufferEvent.chunkMsg 0 1 "x"] ≤ 1 ∧
    (bufferRun none
      [BufferEvent.metaMsg { title := "t", artist := "a", album := "b", duration := 0 } 1,
       BufferEvent.chunkMsg 0 1 "x", BufferEvent.chunkMsg 0 1 "x"]).2.length ≤ 1 :=
  ⟨by simp [wfEvents, chunkInRange], by decide, claim_C3 _ (by simp [wfEvents, chunkInRange]) (by decide)⟩

/-! ## Claim C4 -/

/-- Claim C4, as stated, fails on the code: the `onDisconnect` handler only
decrements the peer counter and removes the map marker — it never touches
`songChunksBuffer`.  Concretely, after a peer-gone event for peer `p`, the
transfer buffer keyed `p-0` is still present, and one further chunk from
`p` completes reassembly and produces a save. -/
theorem claim_C4_counterexample :
    (List.lookup "p-0"
        (viewOnDisconnect
          { connectedPeersCount := 1, peerMarkers := ["p"],
            songChunksBuffer :=
              [("p-0",
                { chunks := [none], totalChunks := 1,
                  metadata := some { title := "t", artist := "a", album := "b", duration := 0 },
                  processed := false })] }
          "p").songChunksBuffer).isSome = true
    ∧ (handleSongChunkMap
        (viewOnDisconnect
          { connectedPeersCount := 1, peerMarkers := ["p"],
            songChunksBuffer :=
              [("p-0",
                { chunks := [none], totalChunks := 1,
                  metadata := some { title := "t", artist := "a", album := "b", duration := 0 },
                  processed := false })] }
          "p").songChunksBuffer
        "p" 0 0 1 "x").2
      = some { meta := { title := "t", artist := "a", album := "b", duration := 0 },
               data := "x" } := by
  constructor <;> rfl

/-- Claim C4 (amended): a peer-gone event destroys the peer connection and
removes the peer's marker, but discards no `TransferBuffer` at all — every
key, including those of the departed peer, is preserved, so a further
reassembly callback for that peer can still occur; the buffer map is emptied only by
the `clone-error` handler, by `finalizeClone`, or per key on successful
reassembly. -/
theorem claim_C4_amended (st : ViewState) (p k : String) :
    List.lookup k (viewOnDisconnect st p).songChunksBuffer
      = List.lookup k st.songChunksBuffer
    ∧ (cloneErrorStep st).songChunksBuffer = [] := by
  constructor <;> simp [viewOnDisconnect, cloneErrorStep]

/-! ## Claim C5 -/

/-- Claim C5: whenever no direct channel for `peerId` is in connected state
— the peer is absent from the table or present but not connected — and the
shared channel is attached, `sendTo` publishes the relay envelope addressed
to `peerId`; being a total function it throws nothing for that reason. -/
theorem claim_C5 {α : Type} (st : P2PState) (peerId : String) (payload : α)
    (hch : st.channelReady = true)
    (hnc : ∀ c, List.lookup peerId st.peers = some c → c.connected = false) :
    sendTo st peerId payload = .relay peerId st.localId payload := by
  unfold sendTo
  cases hl : List.lookup peerId st.peers with
  | none => simp [hch]
  | some c => simp [hnc c hl, hch]

/-- Concrete instance of `claim_C5`: no peer entry at all, relay fallback
fires. -/
theorem claim_C5_witness :
    ({ localId := "me", peers := [], onlineIds := [], channelReady := true } :
        P2PState).channelReady = true
    ∧ sendTo
        ({ localId := "me", peers := [], onlineIds := [], channelReady := true } : P2PState)
        "p" "hello"
      = .relay "p" "me" "hello" :=
  ⟨rfl,
   claim_C5 { localId := "me", peers := [], onlineIds := [], channelReady := true }
     "p" "hello" rfl (fun c hc => by simp at hc)⟩

/-! ## Claim C6 -/

/-- Claim C6: for an inbound signal addressed to the local identifier: if a
session exists for the sender it is fed the signal regardless of sub-type;
if none exists and the signal is an offer, a responder session (initiator
flag false) is created; if none exists and the signal is not an offer, it
is dropped with a warning and the state is unchanged. -/
theorem claim_C6 (st : P2PState) (msg : SignalEnvelope)
    (haddr : msg.toId = st.localId) :
    ((List.lookup msg.fromId st.peers).isSome →
        onSignalMessage st msg = (st, some (.fedToExisting msg.fromId msg.signal)))
    ∧ (List.lookup msg.fromId st.peers = none → msg.signal.type = .offer →
        (onSignalMessage st msg).2 = some (.createdResponder msg.fromId msg.signal)
        ∧ List.lookup msg.fromId (onSignalMessage st msg).1.peers
            = some { connected := false, initiator := false })
    ∧ (List.lookup msg.fromId st.peers = none → msg.signal.type ≠ .offer →
        onSignalMessage st msg = (st, some (.droppedWarning msg.fromId msg.signal.type))) := by
  refine ⟨?_, ?_, ?_⟩
  · intro hs
    cases hl : List.lookup msg.fromId st.peers with
    | none => rw [hl] at hs; simp at hs
    | some c => simp [onSignalMessage, haddr, handleSignal, hl]
  · intro hl hoff
    constructor
    · simp [onSignalMessage, haddr, handleSignal, hl, hoff]
    · simp [onSignalMessage, haddr, handleSignal, hl, hoff, createPeer, List.lookup]
  · intro hl hnoff
    simp [onSignalMessage, haddr, handleSignal, hl, hnoff]

/-- Concrete instances of `claim_C6`, one per case: an answer fed to an
existing session, an offer creating a responder session, and an answer for
an unknown peer dropped with a warning. -/
theorem claim_C6_witness :
    onSignalMessage
        { localId := "me",
          peers := [("p", { connected := true, initiator := true })],
          onlineIds := [], channelReady := true }
        { toId := "me", fromId := "p", signal := { type := .answer, body := "s1" } }
      = ({ localId := "me",
           peers := [("p", { connected := true, initiator := true })],
           onlineIds := [], channelReady := true },
         some (.fedToExisting "p" { type := .answer, body := "s1" }))
    ∧ ((onSignalMessage
          { localId := "me", peers := [], onlineIds := [], channelReady := true }
          { toId := "me", fromId := "q", signal := { type := .offer, body := "s2" } }).2
        = some (.createdResponder "q" { type := .offer, body := "s2" })
      ∧ List.lookup "q"
          (onSignalMessage
            { localId := "me", peers := [], onlineIds := [], channelReady := true }
            { toId := "me", fromId := "q",
              signal := { type := .offer, body := "s2" } }).1.peers
        = some { connected := false, initiator := false })
    ∧ onSignalMessage
        { localId := "me", peers := [], onlineIds := [], channelReady := true }
        { toId := "me", fromId := "q", signal := { type := .answer, body := "s3" } }
      = ({ localId := "me", peers := [], onlineIds := [], channelReady := true },
         some (.droppedWarning "q" .answer)) :=
  ⟨(claim_C6
      { localId := "me",
        peers := [("p", { connected := true, initiator := true })],
        onlineIds := [], channelReady := true }
      { toId := "me", fromId := "p", signal := { type := .answer, body := "s1" } }
      rfl).1 (by decide),
   (claim_C6
      { localId := "me", peers := [], onlineIds := [], channelReady := true }
      { toId := "me", fromId := "q", signal := { type := .offer, body := "s2" } }
      rfl).2.1 rfl rfl,
   (claim_C6
      { localId := "me", peers := [], onlineIds := [], channelReady := true }
      { toId := "me", fromId := "q", signal := { type := .answer, body := "s3" } }
      rfl).2.2 rfl (by decide)⟩

/-! ## Claim C7 -/

/-- Claim C7: the count `finalizeClone` reports is the number of items the
storage collaborator actually holds in the destination collection; it does
not depend on the `total` declared at transfer-start (so when some item
saves fail, the reported count equals the saved count, not the declared
one); progress is deactivated and every residual buffer cleared. -/
theorem claim_C7 (storage : List (Nat × List SavedSong)) (prog : CloneProgress)
    (bufs : List (String × SongBuffer)) (t : Nat) :
    (finalizeClone storage prog bufs).2.2
      = (getSongsForPlaylist storage prog.newPlaylistId).length
    ∧ (finalizeClone storage { prog with total := t } bufs).2.2
        = (finalizeClone storage prog bufs).2.2
    ∧ (finalizeClone storage prog bufs).2.1 = []
    ∧ (finalizeClone storage prog bufs).1.active = false := by
  refine ⟨rfl, rfl, rfl, rfl⟩

/-! ## Claim C8 -/

theorem runHandlersLoop_eq_map (handlers : List (String → RawMsg → Except String Unit))
    (peerId : String) (msg : RawMsg) :
    runHandlersLoop handlers peerId msg
      = handlers.map (fun h => resultOf (h peerId msg)) := by
  induction handlers with
  | nil => rfl
  | cons h hs ih =>
    cases hr : h peerId msg <;> simp [runHandlersLoop, resultOf, hr, ih]

/-- Claim C8: the dispatcher invokes all registered data handlers in
registration order; a handler that throws is caught and logged
individually without stopping the loop, so handler `i`'s recorded outcome
is its own result regardless of earlier failures, and the message is
considered delivered. -/
theorem claim_C8 (handlers : List (String → RawMsg → Except String Unit))
    (peerId : String) (msg : RawMsg) (i : Nat) (hi : i < handlers.length) :
    (onDataDispatch handlers peerId msg).delivered = true
    ∧ (onDataDispatch handlers peerId msg).results.length = handlers.length
    ∧ (onDataDispatch handlers peerId msg).results[i]?
        = some (resultOf (handlers[i] peerId msg)) := by
  refine ⟨rfl, ?_, ?_⟩
  · simp [onDataDispatch, runHandlersLoop_eq_map]
  · simp [onDataDispatch, runHandlersLoop_eq_map, List.getElem?_eq_getElem hi]

/-- Scenario-E instance of `claim_C8`: two handlers, the first throws, the
second still runs and the message is delivered. -/
theorem claim_C8_witness :
    (1 : Nat) <
      ([fun _ _ => Except.error "boom", fun _ _ => Except.ok ()] :
        List (String → RawMsg → Except String Unit)).length
    ∧ (onDataDispatch
        [fun _ _ => Except.error "boom", fun _ _ => Except.ok ()]
        "p" { type := some "location", payload := none }).delivered = true
    ∧ (onDataDispatch
        [fun _ _ => Except.error "boom", fun _ _ => Except.ok ()]
        "p" { type := some "location", payload := none }).results[1]?
      = some .succeeded
    ∧ (onDataDispatch
        [fun _ _ => Except.error "boom", fun _ _ => Except.ok ()]
        "p" { type := some "location", payload := none }).results[0]?
      = some (.failedLogged "boom") :=
  ⟨by simp,
   (claim_C8 [fun _ _ => Except.error "boom", fun _ _ => Except.ok ()]
     "p" { type := some "location", payload := none } 1 (by simp)).1,
   (claim_C8 [fun _ _ => Except.error "boom", fun _ _ => Except.ok ()]
     "p" { type := some "location", payload := none } 1 (by simp)).2.2,
   (claim_C8 [fun _ _ => Except.error "boom", fun _ _ => Except.ok ()]
     "p" { type := some "location", payload := none } 0 (by simp)).2.2⟩

/-! ## Claim C9 -/

theorem chunks_join_aux :
    ∀ (N cs : Nat), 0 < cs → ∀ l : List Char, l.length ≤ N →
    ((List.range (totalChunksFor l.length cs)).map
        (fun i => (l.drop (i * cs)).take cs)).flatten = l := by
  intro N
  induction N with
  | zero =>
    intro cs hcs l hl
    have hnil : l = [] := List.eq_nil_of_length_eq_zero (Nat.le_zero.mp hl)
    subst hnil
    have h0 : totalChunksFor 0 cs = 0 := by
      unfold totalChunksFor
      exact Nat.div_eq_of_lt (by omega)
    simp [h0]
  | succ N ih =>
    intro cs hcs l hl
    rcases Nat.eq_zero_or_pos l.length with hlen0 | hpos
    · exact ih cs hcs l (by omega)
    · by_cases hle : l.length ≤ cs
      · have h1 : totalChunksFor l.length cs = 1 := by
          unfold totalChunksFor
          exact Nat.div_eq_of_lt_le (by omega) (by omega)
        rw [h1, show List.range 1 = [0] from rfl]
        simp only [List.map_cons, List.map_nil, List.flatten_cons, List.flatten_nil,
          Nat.zero_mul, List.drop_zero, List.append_nil]
        exact List.take_of_length_le hle
      · have hlt : cs < l.length := Nat.lt_of_not_le hle
        have h1 : totalChunksFor l.length cs
            = totalChunksFor (l.length - cs) cs + 1 := by
          unfold totalChunksFor
          have he : l.length + cs - 1 = (l.length - cs + cs - 1) + cs := by omega
          rw [he, Nat.add_div_right _ hcs]
        have hdl : (l.drop cs).length = l.length - cs := by
          simp
        rw [h1, ← hdl, List.range_succ_eq_map]
        simp only [List.map_cons, List.map_map, List.flatten_cons, Nat.zero_mul,
          List.drop_zero]
        have htail :
            (List.range (totalChunksFor (l.drop cs).length cs)).map
                ((fun i => (l.drop (i * cs)).take cs) ∘ Nat.succ)
              = (List.range (totalChunksFor (l.drop cs).length cs)).map
                  (fun i => ((l.drop cs).drop (i * cs)).take cs) := by
          apply List.map_congr_left
          intro i _
          simp only [Function.comp]
          have harith : Nat.succ i * cs = cs + i * cs := by
            rw [Nat.succ_mul]
            omega
          rw [harith, ← List.drop_drop]
        rw [htail, ih cs hcs (l.drop cs) (by simp; omega)]
        exact List.take_append_drop cs l

theorem chunks_join (cs : Nat) (hcs : 0 < cs) (l : List Char) :
    ((List.range (totalChunksFor l.length cs)).map
        (fun i => (l.drop (i * cs)).take cs)).flatten = l :=
  chunks_join_aux l.length cs hcs l (le_refl _)

/-- Claim C9: the chunked send of an item selects its chunk size from the
`isDirectConnected(peer)` query — 64 KiB when it answers true, 30 KiB when
it answers false — computes `totalChunks` as the ceiling of the encoded
data length over that chunk size, stamps every chunk message with it, and
the emitted chunks concatenate back to the encoded data. -/
theorem claim_C9 (st : P2PState) (peerId : String) (songIndex : Nat)
    (dataStr : List Char) :
    sendCloneSong st peerId songIndex dataStr
      = chunkMsgsFor songIndex dataStr
          (if isDirectConnected st peerId then 65536 else 30720)
    ∧ (sendCloneSong st peerId songIndex dataStr).length
        = totalChunksFor dataStr.length (cloneChunkSize (isDirectConnected st peerId))
    ∧ (∀ msg ∈ sendCloneSong st peerId songIndex dataStr,
        msg.totalChunks
          = totalChunksFor dataStr.length (cloneChunkSize (isDirectConnected st peerId)))
    ∧ ((sendCloneSong st peerId songIndex dataStr).map
          (fun msg => msg.data)).flatten = dataStr := by
  refine ⟨?_, ?_, ?_, ?_⟩
  · cases h : isDirectConnected st peerId <;>
      simp [sendCloneSong, cloneChunkSize, h]
  · simp [sendCloneSong, chunkMsgsFor]
  · intro msg hmsg
    simp only [sendCloneSong, chunkMsgsFor, List.mem_map] at hmsg
    obtain ⟨ci, -, hci⟩ := hmsg
    rw [← hci]
  · have hpos : 0 < cloneChunkSize (isDirectConnected st peerId) := by
      cases isDirectConnected st peerId <;> simp [cloneChunkSize]
    simp only [sendCloneSong, chunkMsgsFor, List.map_map]
    exact chunks_join (cloneChunkSize (isDirectConnected st peerId)) hpos dataStr

/-- Scenario-D instances of `claim_C9`: with no connected direct channel
the relay-safe 30720-character chunk size is used; with a connected direct
channel the 65536-character size is used. -/
theorem claim_C9_witness :
    isDirectConnected
        { localId := "me", peers := [], onlineIds := [], channelReady := true } "p"
      = false
    ∧ sendCloneSong
        { localId := "me", peers := [], onlineIds := [], channelReady := true }
        "p" 0 ['a', 'b', 'c']
      = chunkMsgsFor 0 ['a', 'b', 'c'] 30720
    ∧ isDirectConnected
        { localId := "me", peers := [("p", { connected := true, initiator := true })],
          onlineIds := [], channelReady := true } "p"
      = true
    ∧ sendCloneSong
        { localId := "me", peers := [("p", { connected := true, initiator := true })],
          onlineIds := [], channelReady := true }
        "p" 0 ['a', 'b', 'c']
      = chunkMsgsFor 0 ['a', 'b', 'c'] 65536 :=
  ⟨rfl,
   (claim_C9 { localId := "me", peers := [], onlineIds := [], channelReady := true }
     "p" 0 ['a', 'b', 'c']).1,
   rfl,
   (claim_C9
     { localId := "me", peers := [("p", { connected := true, initiator := true })],
       onlineIds := [], channelReady := true }
     "p" 0 ['a', 'b', 'c']).1⟩

/-! ## Claim C10 -/

/-- Claim C10, as stated, fails on the code: a payload that decodes but is
missing every required field is not dropped — the parse guard hands it to
the data callback verbatim. -/
theorem claim_C10_counterexample :
    (peerDataGuard (Except.ok { type := none, payload := none })).invoked ≠ none := by
  simp [peerDataGuard]

/-- Claim C10 (amended): an undecodable inbound payload is dropped with a
logged warning and the data callback is not invoked; the catch-all means
the guard itself never throws; a payload that decodes, however, is passed
to the data callback even when its required fields are missing. -/
theorem claim_C10_amended (r : Except String RawMsg) :
    (peerDataGuard r).threw = false
    ∧ (∀ e, r = Except.error e → peerDataGuard r
        = { invoked := none, loggedParseError := true, threw := false })
    ∧ (∀ m, r = Except.ok m → peerDataGuard r
        = { invoked := some m, loggedParseError := false, threw := false }) := by
  cases r with
  | ok m =>
    refine ⟨rfl, ?_, ?_⟩
    · intro e he
      simp at he
    · intro m' hm
      cases hm
      rfl
  | error e =>
    refine ⟨rfl, ?_, ?_⟩
    · intro e' he
      cases he
      rfl
    · intro m hm
      simp at hm

/-- Concrete instance of `claim_C10_amended`: an undecodable payload is
dropped without a throw. -/
theorem claim_C10_amended_witness :
    (peerDataGuard (Except.error "bad json")).threw = false
    ∧ peerDataGuard (Except.error "bad json")
      = { invoked := none, loggedParseError := true, threw := false } :=
  ⟨(claim_C10_amended (Except.error "bad json")).1,
   (claim_C10_amended (Except.error "bad json")).2.1 "bad json" rfl⟩
